import Mathlib

/-!
Verification development for the NIM gateway subsystem
(src/src/main/im/nimGateway.ts and src/src/main/im/nimMedia.ts).

Strings manipulated character by character are embedded as `List Char`
(the chunking algorithm and the conversation id codec); configuration
fields and identifiers are embedded as `String`.  JavaScript machine
integers are embedded as `Nat`/`Int`; JS truthiness of a string field is
embedded as inequality with the empty string; absent object fields are
embedded as `Option`.
-/

/-- Whitespace predicate matching the character class trimmed by the
JavaScript `trimStart`/`trim` operations (WhiteSpace plus LineTerminator). -/
def isJsWhitespace (c : Char) : Bool :=
  let n := c.toNat
  n == 9 || n == 10 || n == 11 || n == 12 || n == 13 || n == 32 ||
  n == 0xA0 || n == 0x1680 || (0x2000 ≤ n && n ≤ 0x200A) ||
  n == 0x2028 || n == 0x2029 || n == 0x202F || n == 0x205F ||
  n == 0x3000 || n == 0xFEFF

/-- Embedding of JavaScript `String.prototype.trimStart` on character lists. -/
def jsTrimStartL (l : List Char) : List Char :=
  l.dropWhile isJsWhitespace

/-- Embedding of JavaScript `String.prototype.trim` on character lists. -/
def jsTrimL (l : List Char) : List Char :=
  ((l.dropWhile isJsWhitespace).reverse.dropWhile isJsWhitespace).reverse

/-- Embedding of JavaScript `String.prototype.trim`. -/
def jsTrim (s : String) : String :=
  String.mk (jsTrimL s.toList)

/-- Embedding of JavaScript `String.prototype.lastIndexOf(ch, fromIdx)`:
the greatest index `i ≤ fromIdx` (clamped to the string length) whose
character is `ch`; `none` plays the role of the JS result `-1`. -/
def jsLastIndexOf (l : List Char) (ch : Char) (fromIdx : Nat) : Option Nat :=
  (List.range (min (fromIdx + 1) l.length)).reverse.find? (fun i => l.get? i == some ch)

/-- Maximum characters per text message (nimGateway.ts line 32). -/
def MAX_MESSAGE_LENGTH : Nat := 5000

/-- Split-point selection of one iteration of the loop in
`splitMessageIntoChunks` (nimGateway.ts lines 123-129): prefer the last
newline at or before `maxLength`, unless absent or before half of
`maxLength`; then the last space under the same conditions; otherwise a
hard split exactly at `maxLength`.  The JS comparison
`splitIndex < maxLength * 0.5` on an integer index is exactly
`2 * splitIndex < maxLength`. -/
def chooseSplitIndex (remaining : List Char) (maxLength : Nat) : Nat :=
  let nlCandidate :=
    match jsLastIndexOf remaining '\n' maxLength with
    | none => none
    | some i => if 2 * i < maxLength then none else some i
  match nlCandidate with
  | some i => i
  | none =>
    match jsLastIndexOf remaining ' ' maxLength with
    | none => maxLength
    | some j => if 2 * j < maxLength then maxLength else j

/-- Loop body of `splitMessageIntoChunks` (nimGateway.ts lines 117-133),
written with explicit fuel; `splitMessageIntoChunks` supplies fuel equal
to the text length, which is enough for every `maxLength ≥ 1` because
each iteration consumes at least one character. -/
def splitChunksGo (maxLength : Nat) : Nat → List Char → List (List Char)
  | 0, _ => []
  | fuel + 1, remaining =>
    if remaining.length = 0 then []
    else if remaining.length ≤ maxLength then [remaining]
    else
      let splitIndex := chooseSplitIndex remaining maxLength
      remaining.take splitIndex ::
        splitChunksGo maxLength fuel (jsTrimStartL (remaining.drop splitIndex))

/-- Embedding of `splitMessageIntoChunks` (nimGateway.ts lines 109-136). -/
def splitMessageIntoChunks (text : List Char) (maxLength : Nat) : List (List Char) :=
  if text.length ≤ maxLength then [text]
  else splitChunksGo maxLength text.length text

/-- A found last-index is below the from-index and inside the string. -/
theorem jsLastIndexOf_bounds {l : List Char} {ch : Char} {fromIdx i : Nat}
    (h : jsLastIndexOf l ch fromIdx = some i) : i ≤ fromIdx ∧ i < l.length := by
  unfold jsLastIndexOf at h
  have hmem := List.mem_of_find?_eq_some h
  rw [List.mem_reverse, List.mem_range] at hmem
  omega

/-- The selected split index lies in `[1, maxLength]` whenever `maxLength ≥ 1`. -/
theorem chooseSplitIndex_bounds (remaining : List Char) (maxLength : Nat)
    (hm : 1 ≤ maxLength) :
    1 ≤ chooseSplitIndex remaining maxLength ∧
      chooseSplitIndex remaining maxLength ≤ maxLength := by
  unfold chooseSplitIndex
  cases hnl : jsLastIndexOf remaining '\n' maxLength with
  | none =>
    cases hsp : jsLastIndexOf remaining ' ' maxLength with
    | none => simp; omega
    | some j =>
      have hb := jsLastIndexOf_bounds hsp
      by_cases hj : 2 * j < maxLength <;> simp [hj] <;> omega
  | some i =>
    have hb := jsLastIndexOf_bounds hnl
    by_cases hi : 2 * i < maxLength
    · simp only [hi, if_true]
      cases hsp : jsLastIndexOf remaining ' ' maxLength with
      | none => simp; omega
      | some j =>
        have hb2 := jsLastIndexOf_bounds hsp
        by_cases hj : 2 * j < maxLength <;> simp [hj] <;> omega
    · simp only [hi, if_false]
      omega

/-- Dropping a whitespace prefix never lengthens a list. -/
theorem length_dropWhile_ws_le (p : Char → Bool) (l : List Char) :
    (l.dropWhile p).length ≤ l.length := by
  have h := List.takeWhile_append_dropWhile p l
  have h2 : (l.takeWhile p ++ l.dropWhile p).length = l.length := by rw [h]
  rw [List.length_append] at h2
  omega

/-- Round-trip invariant of the chunking loop: the produced chunks,
interleaved with the whitespace runs removed by `trimStart` between
iterations, concatenate back to the input, and every chunk respects the
length bound. -/
theorem splitChunksGo_spec (maxLength : Nat) (hm : 1 ≤ maxLength) :
    ∀ fuel remaining, remaining.length ≤ fuel →
    ∃ seps : List (List Char),
      seps.length = (splitChunksGo maxLength fuel remaining).length ∧
      (∀ s ∈ seps, ∀ ch ∈ s, isJsWhitespace ch = true) ∧
      (List.zipWith (· ++ ·) (splitChunksGo maxLength fuel remaining) seps).flatten =
        remaining ∧
      (∀ chunk ∈ splitChunksGo maxLength fuel remaining, chunk.length ≤ maxLength) := by
  intro fuel
  induction fuel with
  | zero =>
    intro remaining hlen
    have : remaining = [] := List.eq_nil_of_length_eq_zero (by omega)
    subst this
    exact ⟨[], by simp [splitChunksGo]⟩
  | succ fuel ih =>
    intro remaining hlen
    by_cases hnil : remaining.length = 0
    · have : remaining = [] := List.eq_nil_of_length_eq_zero hnil
      subst this
      exact ⟨[], by simp [splitChunksGo]⟩
    · by_cases hfits : remaining.length ≤ maxLength
      · have hgo : splitChunksGo maxLength (fuel + 1) remaining = [remaining] := by
          simp only [splitChunksGo]
          rw [if_neg hnil, if_pos hfits]
        refine ⟨[[]], by simp [hgo], ?_, by simp [hgo], ?_⟩
        · intro s hs ch hch
          simp only [List.mem_singleton] at hs
          subst hs
          simp at hch
        · intro chunk hchunk
          rw [hgo] at hchunk
          simp only [List.mem_singleton] at hchunk
          subst hchunk
          exact hfits
      · have hgo : splitChunksGo maxLength (fuel + 1) remaining =
            remaining.take (chooseSplitIndex remaining maxLength) ::
              splitChunksGo maxLength fuel
                (jsTrimStartL (remaining.drop (chooseSplitIndex remaining maxLength))) := by
          simp only [splitChunksGo]
          rw [if_neg hnil, if_neg hfits]
        set sp := chooseSplitIndex remaining maxLength with hspdef
        obtain ⟨hsp1, hsp2⟩ := chooseSplitIndex_bounds remaining maxLength hm
        have hlen2 : (jsTrimStartL (remaining.drop sp)).length ≤ fuel := by
          have h1 : (jsTrimStartL (remaining.drop sp)).length ≤ (remaining.drop sp).length :=
            length_dropWhile_ws_le _ _
          have h2 : (remaining.drop sp).length = remaining.length - sp :=
            List.length_drop sp remaining
          omega
        obtain ⟨seps', hl', hws', hjoin', hbound'⟩ :=
          ih (jsTrimStartL (remaining.drop sp)) hlen2
        refine ⟨(remaining.drop sp).takeWhile isJsWhitespace :: seps', ?_, ?_, ?_, ?_⟩
        · simp [hgo, hl']
        · intro s hs ch hch
          rcases List.mem_cons.mp hs with rfl | hs'
          · exact List.mem_takeWhile_imp hch
          · exact hws' s hs' ch hch
        · rw [hgo]
          simp only [List.zipWith_cons_cons, List.flatten_cons]
          rw [hjoin', List.append_assoc]
          have hsplit : (remaining.drop sp).takeWhile isJsWhitespace ++
              jsTrimStartL (remaining.drop sp) = remaining.drop sp :=
            List.takeWhile_append_dropWhile isJsWhitespace (remaining.drop sp)
          rw [hsplit]
          exact List.take_append_drop sp remaining
        · intro chunk hchunk
          rw [hgo] at hchunk
          rcases List.mem_cons.mp hchunk with rfl | hmem
          · have := List.length_take sp remaining
            omega
          · exact hbound' chunk hmem

/-- C2: for every text and every chunk bound of at least one character,
the chunks returned by splitMessageIntoChunks concatenate back to the
original text once interleaved with the all-whitespace runs removed by
the leading-whitespace trim applied to each remainder, and every chunk
has length at most the bound. -/
theorem splitMessageIntoChunks_round_trip (text : List Char) (maxLength : Nat)
    (hm : 1 ≤ maxLength) :
    ∃ seps : List (List Char),
      seps.length = (splitMessageIntoChunks text maxLength).length ∧
      (∀ s ∈ seps, ∀ ch ∈ s, isJsWhitespace ch = true) ∧
      (List.zipWith (· ++ ·) (splitMessageIntoChunks text maxLength) seps).flatten =
        text ∧
      (∀ chunk ∈ splitMessageIntoChunks text maxLength, chunk.length ≤ maxLength) := by
  by_cases hfits : text.length ≤ maxLength
  · have hval : splitMessageIntoChunks text maxLength = [text] := by
      unfold splitMessageIntoChunks
      rw [if_pos hfits]
    refine ⟨[[]], by simp [hval], ?_, by simp [hval], ?_⟩
    · intro s hs ch hch
      simp only [List.mem_singleton] at hs
      subst hs
      simp at hch
    · intro chunk hchunk
      rw [hval] at hchunk
      simp only [List.mem_singleton] at hchunk
      subst hchunk
      exact hfits
  · have hval : splitMessageIntoChunks text maxLength =
        splitChunksGo maxLength text.length text := by
      unfold splitMessageIntoChunks
      rw [if_neg hfits]
    rw [hval]
    exact splitChunksGo_spec maxLength hm text.length text (le_refl _)

/-- Witness for C2 at a concrete text and bound. -/
theorem splitMessageIntoChunks_round_trip_witness :
    1 ≤ 8 ∧
    (∃ seps : List (List Char),
      seps.length = (splitMessageIntoChunks "hello world this is a test".toList 8).length ∧
      (∀ s ∈ seps, ∀ ch ∈ s, isJsWhitespace ch = true) ∧
      (List.zipWith (· ++ ·)
        (splitMessageIntoChunks "hello world this is a test".toList 8) seps).flatten =
        "hello world this is a test".toList ∧
      (∀ chunk ∈ splitMessageIntoChunks "hello world this is a test".toList 8,
        chunk.length ≤ 8)) :=
  ⟨by decide, splitMessageIntoChunks_round_trip "hello world this is a test".toList 8 (by decide)⟩

/-- Dedup TTL (nimGateway.ts line 29): five minutes in milliseconds. -/
def MESSAGE_DEDUP_TTL : Nat := 5 * 60 * 1000

/-- The process-wide dedup mapping `processedMessages` (nimGateway.ts
line 28), embedded as a partial map from message id to first-seen time. -/
def DedupCache : Type := String → Option Nat

/-- Embedding of `cleanupProcessedMessages` (nimGateway.ts lines 628-635):
delete every entry whose timestamp is more than the TTL in the past.  The
JS test `now - timestamp > TTL` agrees with truncated Nat subtraction
because a future timestamp makes both sides of the comparison fail. -/
def cleanupProcessedMessages (now : Nat) (cache : DedupCache) : DedupCache :=
  fun k =>
    match cache k with
    | some t => if now - t > MESSAGE_DEDUP_TTL then none else some t
    | none => none

/-- Embedding of `isMessageProcessed` (nimGateway.ts lines 616-623): run
the lazy cleanup, report whether the id is still present, and record the
id at the current time when it is not. -/
def isMessageProcessed (messageId : String) (now : Nat) (cache : DedupCache) :
    Bool × DedupCache :=
  let c := cleanupProcessedMessages now cache
  match c messageId with
  | some _ => (true, c)
  | none => (false, fun k => if k = messageId then some now else c k)

/-- A fresh id is recorded at the current time. -/
theorem isMessageProcessed_records {messageId : String} {now : Nat} {cache : DedupCache}
    (h : (isMessageProcessed messageId now cache).1 = false) :
    (isMessageProcessed messageId now cache).2 messageId = some now := by
  simp only [isMessageProcessed] at h ⊢
  cases hc : cleanupProcessedMessages now cache messageId with
  | some t => simp [hc] at h
  | none => simp [hc]

/-- Auxiliary: every entry of the cleaned cache is within the TTL window. -/
theorem cleanupProcessedMessages_fresh (now : Nat) (cache : DedupCache)
    (k : String) (t : Nat) (h : cleanupProcessedMessages now cache k = some t) :
    now - t ≤ MESSAGE_DEDUP_TTL := by
  unfold cleanupProcessedMessages at h
  cases hck : cache k with
  | none => simp [hck] at h
  | some t0 =>
    rw [hck] at h
    by_cases hexp : now - t0 > MESSAGE_DEDUP_TTL
    · simp [hexp] at h
    · simp [hexp] at h
      omega

/-- Every entry surviving a lookup was seen within the last TTL window. -/
theorem isMessageProcessed_evicts (messageId : String) (now : Nat) (cache : DedupCache)
    (k : String) (t : Nat) (h : (isMessageProcessed messageId now cache).2 k = some t) :
    now - t ≤ MESSAGE_DEDUP_TTL := by
  simp only [isMessageProcessed] at h
  cases hc : cleanupProcessedMessages now cache messageId with
  | some t0 =>
    rw [hc] at h
    exact cleanupProcessedMessages_fresh now cache k t h
  | none =>
    rw [hc] at h
    simp only at h
    by_cases hk : k = messageId
    · subst hk
      rw [if_pos rfl] at h
      cases h
      omega
    · rw [if_neg hk] at h
      exact cleanupProcessedMessages_fresh now cache k t h

/-- A duplicate hit keeps the first-seen timestamp of the entry. -/
theorem isMessageProcessed_no_refresh (messageId : String) (now t : Nat)
    (cache : DedupCache) (hin : cache messageId = some t)
    (hfresh : now - t ≤ MESSAGE_DEDUP_TTL) :
    (isMessageProcessed messageId now cache).1 = true ∧
      (isMessageProcessed messageId now cache).2 messageId = some t := by
  have hexp : ¬ (now - t > MESSAGE_DEDUP_TTL) := by omega
  have hc : cleanupProcessedMessages now cache messageId = some t := by
    simp [cleanupProcessedMessages, hin, hexp]
  simp only [isMessageProcessed]
  rw [hc]
  exact ⟨rfl, hc⟩

/-- Gateway configuration (NimConfig in src/src/main/im/types.ts, fields
as used by nimGateway.ts): credentials, enabled flag, optional comma
joined account allow-list, debug flag.  A missing string credential is
embedded as the empty string, which is exactly what the JS truthiness
tests observe. -/
structure NimConfig where
  enabled : Bool
  appKey : String
  account : String
  token : String
  accountWhitelist : Option String
  debug : Bool
deriving DecidableEq, Repr

/-- Gateway status record (NimGatewayStatus in types.ts, fields as used
by nimGateway.ts). -/
structure NimGatewayStatus where
  connected : Bool
  startedAt : Option Nat
  lastError : Option String
  botAccount : Option String
  lastInboundAt : Option Nat
  lastOutboundAt : Option Nat
deriving DecidableEq, Repr

/-- NIM message type tags (nimGateway.ts line 37). -/
inductive NimMessageType where
  | text
  | image
  | audio
  | video
  | file
  | geo
  | notice
  | custom
  | tip
  | robot
  | unknown
deriving DecidableEq, BEq, Repr

/-- Embedding of `convertMessageType` (nimGateway.ts lines 39-53); the
source tag string `notification` is embedded as the constructor
`notice`. -/
def convertMessageType (v2Type : Int) : NimMessageType :=
  if v2Type = 0 then .text
  else if v2Type = 1 then .image
  else if v2Type = 2 then .audio
  else if v2Type = 3 then .video
  else if v2Type = 4 then .geo
  else if v2Type = 5 then .notice
  else if v2Type = 6 then .file
  else if v2Type = 10 then .tip
  else if v2Type = 11 then .robot
  else if v2Type = 100 then .custom
  else .unknown

/-- Supported inbound message types (nimGateway.ts line 695). -/
def supportedTypes : List NimMessageType :=
  [.text, .image, .audio, .video, .file]

/-- Session type tags used by the conversation id codec. -/
inductive SessionType where
  | p2p
  | team
  | superTeam
deriving DecidableEq, Repr

/-- Embedding of JavaScript `String.prototype.split` with a one-character
separator, on character lists. -/
def splitOnCharL (sep : Char) : List Char → List (List Char)
  | [] => [[]]
  | c :: cs =>
    let rest := splitOnCharL sep cs
    if c = sep then [] :: rest
    else
      match rest with
      | [] => [[c]]
      | r :: rs => (c :: r) :: rs

/-- Embedding of JavaScript `String.prototype.split` with a one-character
separator. -/
def jsSplitChar (sep : Char) (s : String) : List String :=
  (splitOnCharL sep s.toList).map String.mk

/-- Leading decimal digits of a character list, `none` when the first
character is not a digit. -/
def parseDigits (s : List Char) : Option Nat :=
  match s.takeWhile Char.isDigit with
  | [] => none
  | ds => some (ds.foldl (fun a c => a * 10 + (c.toNat - 48)) 0)

/-- Embedding of JavaScript `parseInt(str, 10)`: skip leading whitespace,
read an optional sign and leading decimal digits; `none` plays the role
of `NaN`. -/
def jsParseInt (s : String) : Option Int :=
  let l := s.toList.dropWhile isJsWhitespace
  match l with
  | '-' :: rest => (parseDigits rest).map (fun n => -(n : Int))
  | '+' :: rest => (parseDigits rest).map (fun n => (n : Int))
  | _ => (parseDigits l).map (fun n => (n : Int))

/-- Embedding of `parseConversationId` (nimGateway.ts lines 58-66):
split on the pipe character; with at least three parts, map a parsed
type number 1 to p2p and 2 to team, anything else (including 3) back to
p2p, and return the third part as target id; otherwise p2p with an empty
target. -/
def parseConversationId (conversationId : String) : SessionType × String :=
  let parts := splitOnCharL '|' conversationId.toList
  if parts.length ≥ 3 then
    let typeNum := jsParseInt (String.mk (parts.getD 1 []))
    let sessionType :=
      if typeNum = some 1 then SessionType.p2p
      else if typeNum = some 2 then SessionType.team
      else SessionType.p2p
    (sessionType, String.mk (parts.getD 2 []))
  else (SessionType.p2p, "")

/-- The SDK conversation id utility consumed by `buildConversationId`
(one builder method per session type). -/
structure ConversationIdUtil where
  p2pConversationId : String → String
  teamConversationId : String → String
  superTeamConversationId : String → String

/-- Embedding of `buildConversationId` (nimGateway.ts lines 71-87): use
the SDK utility when present, otherwise the documented manual fallback
encoding zero, pipe, type number, pipe, target id. -/
def buildConversationId (conversationIdUtil : Option ConversationIdUtil)
    (accountId : String) (sessionType : SessionType) : String :=
  match conversationIdUtil with
  | some u =>
    match sessionType with
    | .p2p => u.p2pConversationId accountId
    | .team => u.teamConversationId accountId
    | .superTeam => u.superTeamConversationId accountId
  | none =>
    let typeNum :=
      match sessionType with
      | .p2p => "1"
      | .team => "2"
      | .superTeam => "3"
    "0|" ++ typeNum ++ "|" ++ accountId

/-- Splitting a list free of the separator yields the list itself. -/
theorem splitOnCharL_not_mem {sep : Char} : ∀ {l : List Char}, sep ∉ l →
    splitOnCharL sep l = [l] := by
  intro l
  induction l with
  | nil => intro _; rfl
  | cons c cs ih =>
    intro h
    have hc : c ≠ sep := fun hceq => h (hceq ▸ List.mem_cons_self c cs)
    have hcs : sep ∉ cs := fun hmem => h (List.mem_cons_of_mem c hmem)
    simp only [splitOnCharL, ih hcs]
    rw [if_neg hc]

/-- Splitting the manual conversation id encoding produces exactly the
three encoded parts, provided neither the type number nor the target
contains the separator. -/
theorem splitOnCharL_manual (c1 : Char) (t : List Char) (h1 : c1 ≠ '|')
    (ht : '|' ∉ t) :
    splitOnCharL '|' ('0' :: '|' :: c1 :: '|' :: t) = [['0'], [c1], t] := by
  have h0 : ('0' : Char) ≠ '|' := by decide
  simp [splitOnCharL, h0, h1, splitOnCharL_not_mem ht]

/-- Parsing a manually encoded conversation id with type number 1. -/
theorem parseConversationId_manual_one (target : String)
    (hpipe : '|' ∉ target.toList) :
    parseConversationId (String.mk ('0' :: '|' :: '1' :: '|' :: target.toList)) =
      (SessionType.p2p, target) := by
  simp only [parseConversationId]
  rw [show (String.mk ('0' :: '|' :: '1' :: '|' :: target.toList)).toList =
      '0' :: '|' :: '1' :: '|' :: target.toList from rfl,
    splitOnCharL_manual '1' target.toList (by decide) hpipe]
  simp [List.getD, jsParseInt, parseDigits, isJsWhitespace]

/-- Parsing a manually encoded conversation id with type number 2. -/
theorem parseConversationId_manual_two (target : String)
    (hpipe : '|' ∉ target.toList) :
    parseConversationId (String.mk ('0' :: '|' :: '2' :: '|' :: target.toList)) =
      (SessionType.team, target) := by
  simp only [parseConversationId]
  rw [show (String.mk ('0' :: '|' :: '2' :: '|' :: target.toList)).toList =
      '0' :: '|' :: '2' :: '|' :: target.toList from rfl,
    splitOnCharL_manual '2' target.toList (by decide) hpipe]
  simp [List.getD, jsParseInt, parseDigits, isJsWhitespace]

/-- Parsing a manually encoded conversation id with type number 3 falls
back to p2p because parseConversationId only distinguishes 1 and 2. -/
theorem parseConversationId_manual_three (target : String)
    (hpipe : '|' ∉ target.toList) :
    parseConversationId (String.mk ('0' :: '|' :: '3' :: '|' :: target.toList)) =
      (SessionType.p2p, target) := by
  simp only [parseConversationId]
  rw [show (String.mk ('0' :: '|' :: '3' :: '|' :: target.toList)).toList =
      '0' :: '|' :: '3' :: '|' :: target.toList from rfl,
    splitOnCharL_manual '3' target.toList (by decide) hpipe]
  simp [List.getD, jsParseInt, parseDigits, isJsWhitespace]

/-- C9 counterexample: the manual fallback encoding of a superTeam
conversation does not parse back to superTeam; parseConversationId maps
type number 3 to p2p. -/
theorem parseConversationId_superTeam_counterexample :
    parseConversationId (buildConversationId none "bob" SessionType.superTeam) ≠
      (SessionType.superTeam, "bob") := by
  decide

/-- C9 (amended): for every target id without a pipe character, the
manual fallback encoding round-trips the target id for all three session
types, and round-trips the session type for p2p and team; a superTeam id
parses back with session type p2p. -/
theorem buildConversationId_parse_round_trip (target : String)
    (hpipe : '|' ∉ target.toList) :
    parseConversationId (buildConversationId none target SessionType.p2p) =
      (SessionType.p2p, target) ∧
    parseConversationId (buildConversationId none target SessionType.team) =
      (SessionType.team, target) ∧
    parseConversationId (buildConversationId none target SessionType.superTeam) =
      (SessionType.p2p, target) := by
  refine ⟨?_, ?_, ?_⟩
  · rw [show buildConversationId none target SessionType.p2p =
        String.mk ('0' :: '|' :: '1' :: '|' :: target.toList) from rfl]
    exact parseConversationId_manual_one target hpipe
  · rw [show buildConversationId none target SessionType.team =
        String.mk ('0' :: '|' :: '2' :: '|' :: target.toList) from rfl]
    exact parseConversationId_manual_two target hpipe
  · rw [show buildConversationId none target SessionType.superTeam =
        String.mk ('0' :: '|' :: '3' :: '|' :: target.toList) from rfl]
    exact parseConversationId_manual_three target hpipe

/-- Witness for the amended C9 statement at a concrete target id. -/
theorem buildConversationId_parse_round_trip_witness :
    ('|' ∉ "alice".toList) ∧
    (parseConversationId (buildConversationId none "alice" SessionType.p2p) =
        (SessionType.p2p, "alice") ∧
      parseConversationId (buildConversationId none "alice" SessionType.team) =
        (SessionType.team, "alice") ∧
      parseConversationId (buildConversationId none "alice" SessionType.superTeam) =
        (SessionType.p2p, "alice")) :=
  ⟨by decide, buildConversationId_parse_round_trip "alice" (by decide)⟩

/-- Mutable fields of the NimGateway class (nimGateway.ts lines 139-175)
that the lifecycle operations touch.  Native references (client, the two
services, message creator, conversation id utility), the five bound
callback references, the pending reconnect timer and the media cleanup
interval are embedded as presence flags, since the lifecycle code only
ever tests them for null and replaces them wholesale. -/
structure GwState where
  v2Client : Bool
  loginService : Bool
  messageService : Bool
  messageCreator : Bool
  conversationIdUtil : Bool
  config : Option NimConfig
  status : NimGatewayStatus
  lastSenderId : Option String
  reconnectTimer : Bool
  reconnectAttempts : Nat
  cleanupInterval : Bool
  boundOnReceiveMessages : Bool
  boundOnLoginStatus : Bool
  boundOnKickedOffline : Bool
  boundOnLoginFailed : Bool
  boundOnDisconnected : Bool
  stopRequested : Bool
deriving DecidableEq, Repr

/-- A runtime config patch (`Partial NimConfig` in TS): absent fields are
`none` and leave the stored value untouched under spread merge. -/
structure NimConfigPatch where
  enabled : Option Bool
  appKey : Option String
  account : Option String
  token : Option String
  accountWhitelist : Option (Option String)
  debug : Option Bool
deriving DecidableEq, Repr

/-- JavaScript object spread of a partial config over a full config. -/
def mergeConfig (c : NimConfig) (p : NimConfigPatch) : NimConfig :=
  { enabled := p.enabled.getD c.enabled
    appKey := p.appKey.getD c.appKey
    account := p.account.getD c.account
    token := p.token.getD c.token
    accountWhitelist := p.accountWhitelist.getD c.accountWhitelist
    debug := p.debug.getD c.debug }

/-- Embedding of `updateConfig` (nimGateway.ts lines 199-204): shallow
merge the patch into the stored config only when a config is stored. -/
def updateConfig (st : GwState) (partialConfig : NimConfigPatch) : GwState :=
  match st.config with
  | some c => { st with config := some (mergeConfig c partialConfig) }
  | none => st

/-- Native SDK operations performed by `stopInternal`, in program order. -/
inductive NativeOp where
  | offReceiveMessages
  | offLoginStatus
  | offKickedOffline
  | offLoginFailed
  | offDisconnected
  | uninitClient
deriving DecidableEq, Repr

/-- Embedding of `cleanup` (nimGateway.ts lines 599-611): null all native
references and clear the media cleanup interval; the stored config is
deliberately kept. -/
def cleanupRefs (st : GwState) : GwState :=
  { st with
    v2Client := false
    loginService := false
    messageService := false
    messageCreator := false
    conversationIdUtil := false
    cleanupInterval := false }

/-- Embedding of `stopInternal` (nimGateway.ts lines 511-594).  Returns
the new state, the settle delay awaited in milliseconds, and the list of
native operations performed in order. -/
def stopInternalRun (st : GwState) : GwState × Nat × List NativeOp :=
  let st1 := { st with reconnectTimer := false, reconnectAttempts := 0 }
  if st1.v2Client = false then (st1, 0, [])
  else
    let ops :=
      (if st1.messageService && st1.boundOnReceiveMessages then
        [NativeOp.offReceiveMessages] else []) ++
      (if st1.loginService && st1.boundOnLoginStatus then
        [NativeOp.offLoginStatus] else []) ++
      (if st1.loginService && st1.boundOnKickedOffline then
        [NativeOp.offKickedOffline] else []) ++
      (if st1.loginService && st1.boundOnLoginFailed then
        [NativeOp.offLoginFailed] else []) ++
      (if st1.loginService && st1.boundOnDisconnected then
        [NativeOp.offDisconnected] else []) ++
      [NativeOp.uninitClient]
    let st2 := { st1 with
      boundOnReceiveMessages := false
      boundOnLoginStatus := false
      boundOnKickedOffline := false
      boundOnLoginFailed := false
      boundOnDisconnected := false }
    let st3 := cleanupRefs st2
    let st4 := { st3 with
      status :=
        { connected := false
          startedAt := none
          lastError := none
          botAccount := st3.status.botAccount
          lastInboundAt := none
          lastOutboundAt := none } }
    (st4, 1000, ops)

/-- Embedding of the public `stop` (nimGateway.ts lines 491-506): set the
stop-requested flag, then run the internal teardown under the lifecycle
mutex (the mutex itself is the identity in this single-threaded model). -/
def stopRun (st : GwState) : GwState × Nat × List NativeOp :=
  stopInternalRun { st with stopRequested := true }

/-- The freshly constructed gateway state (nimGateway.ts lines 139-179
with DEFAULT_NIM_STATUS): no native references, no stored config, a
disconnected status, no timers and no stop request. -/
def idleState : GwState :=
  { v2Client := false
    loginService := false
    messageService := false
    messageCreator := false
    conversationIdUtil := false
    config := none
    status :=
      { connected := false
        startedAt := none
        lastError := none
        botAccount := none
        lastInboundAt := none
        lastOutboundAt := none }
    lastSenderId := none
    reconnectTimer := false
    reconnectAttempts := 0
    cleanupInterval := false
    boundOnReceiveMessages := false
    boundOnLoginStatus := false
    boundOnKickedOffline := false
    boundOnLoginFailed := false
    boundOnDisconnected := false
    stopRequested := false }

/-- An all-field-absent config patch for concrete witnesses. -/
def emptyPatch : NimConfigPatch :=
  { enabled := none
    appKey := none
    account := none
    token := none
    accountWhitelist := none
    debug := none }

/-- C10: before any start has stored a config, updateConfig is a complete
no-op on the whole gateway state; once a config is stored it replaces
only the config field, with the patch shallow-merged over the stored
value. -/
theorem updateConfig_frame (st : GwState) (p : NimConfigPatch) :
    (st.config = none → updateConfig st p = st) ∧
    (∀ c, st.config = some c →
      updateConfig st p = { st with config := some (mergeConfig c p) }) := by
  constructor
  · intro h
    unfold updateConfig
    rw [h]
  · intro c h
    unfold updateConfig
    rw [h]

/-- Witness for C10 at the fresh gateway state and the empty patch. -/
theorem updateConfig_frame_witness :
    idleState.config = none ∧ updateConfig idleState emptyPatch = idleState :=
  ⟨rfl, (updateConfig_frame idleState emptyPatch).1 rfl⟩

/-- C4 counterexample: calling stop on the freshly constructed (already
stopped) gateway does not leave the state unchanged; it sets the
stop-requested flag, which suppresses future reconnect attempts. -/
theorem stop_when_stopped_changes_state_counterexample :
    (stopRun idleState).1 ≠ idleState := by
  decide

/-- C4 (amended): calling stop with no native handle does not raise, does
not wait the settle delay and leaves status, config and all native
references untouched; the only effect is setting the stop-requested flag,
cancelling any pending reconnect timer and resetting the backoff counter.
Stop composed with stop equals a single stop: a second stop returns
promptly and leaves the post-stop state exactly unchanged. -/
theorem stop_idempotent (st : GwState) :
    (st.v2Client = false →
      (stopRun st).2.1 = 0 ∧
      (stopRun st).1 = { st with
        stopRequested := true
        reconnectTimer := false
        reconnectAttempts := 0 } ∧
      (stopRun st).1.status = st.status ∧
      (stopRun st).1.config = st.config) ∧
    (stopRun (stopRun st).1).1 = (stopRun st).1 ∧
    (stopRun (stopRun st).1).2.1 = 0 := by
  refine ⟨?_, ?_, ?_⟩
  · intro h
    refine ⟨?_, ?_, ?_, ?_⟩ <;> simp [stopRun, stopInternalRun, h]
  · cases hv : st.v2Client <;>
      simp [stopRun, stopInternalRun, cleanupRefs, hv]
  · cases hv : st.v2Client <;>
      simp [stopRun, stopInternalRun, cleanupRefs, hv]

/-- Witness for the amended C4 statement at the fresh gateway state. -/
theorem stop_idempotent_witness :
    idleState.v2Client = false ∧
    ((idleState.v2Client = false →
      (stopRun idleState).2.1 = 0 ∧
      (stopRun idleState).1 = { idleState with
        stopRequested := true
        reconnectTimer := false
        reconnectAttempts := 0 } ∧
      (stopRun idleState).1.status = idleState.status ∧
      (stopRun idleState).1.config = idleState.config) ∧
    (stopRun (stopRun idleState).1).1 = (stopRun idleState).1 ∧
    (stopRun (stopRun idleState).1).2.1 = 0) :=
  ⟨rfl, stop_idempotent idleState⟩

/-- C5: stopping with a live native handle (client, both services and all
five bound callbacks present, as established by a successful start)
performs exactly the five listener removals followed by the native
teardown, so every removal precedes uninit; afterwards every native
reference is null, the reconnect timer is cancelled and the status shows
disconnected. -/
theorem stop_unregisters_before_uninit (st : GwState)
    (hc : st.v2Client = true) (hl : st.loginService = true)
    (hm : st.messageService = true) (hb1 : st.boundOnReceiveMessages = true)
    (hb2 : st.boundOnLoginStatus = true) (hb3 : st.boundOnKickedOffline = true)
    (hb4 : st.boundOnLoginFailed = true) (hb5 : st.boundOnDisconnected = true) :
    (stopRun st).2.2 =
      [NativeOp.offReceiveMessages, NativeOp.offLoginStatus,
        NativeOp.offKickedOffline, NativeOp.offLoginFailed,
        NativeOp.offDisconnected, NativeOp.uninitClient] ∧
    ((stopRun st).2.2.indexOf NativeOp.offReceiveMessages <
      (stopRun st).2.2.indexOf NativeOp.uninitClient ∧
     (stopRun st).2.2.indexOf NativeOp.offLoginStatus <
      (stopRun st).2.2.indexOf NativeOp.uninitClient ∧
     (stopRun st).2.2.indexOf NativeOp.offKickedOffline <
      (stopRun st).2.2.indexOf NativeOp.uninitClient ∧
     (stopRun st).2.2.indexOf NativeOp.offLoginFailed <
      (stopRun st).2.2.indexOf NativeOp.uninitClient ∧
     (stopRun st).2.2.indexOf NativeOp.offDisconnected <
      (stopRun st).2.2.indexOf NativeOp.uninitClient) ∧
    (stopRun st).1.v2Client = false ∧
    (stopRun st).1.loginService = false ∧
    (stopRun st).1.messageService = false ∧
    (stopRun st).1.messageCreator = false ∧
    (stopRun st).1.conversationIdUtil = false ∧
    (stopRun st).1.reconnectTimer = false ∧
    (stopRun st).1.status.connected = false := by
  have htrace : (stopRun st).2.2 =
      [NativeOp.offReceiveMessages, NativeOp.offLoginStatus,
        NativeOp.offKickedOffline, NativeOp.offLoginFailed,
        NativeOp.offDisconnected, NativeOp.uninitClient] := by
    simp [stopRun, stopInternalRun, hc, hl, hm, hb1, hb2, hb3, hb4, hb5]
  refine ⟨htrace, ?_, ?_⟩
  · rw [htrace]
    refine ⟨?_, ?_, ?_, ?_, ?_⟩ <;> decide
  · refine ⟨?_, ?_, ?_, ?_, ?_, ?_, ?_⟩ <;>
      simp [stopRun, stopInternalRun, cleanupRefs, hc]

/-- A gateway state with a live native handle, for the C5 witness. -/
def liveState : GwState :=
  { idleState with
    v2Client := true
    loginService := true
    messageService := true
    messageCreator := true
    conversationIdUtil := true
    boundOnReceiveMessages := true
    boundOnLoginStatus := true
    boundOnKickedOffline := true
    boundOnLoginFailed := true
    boundOnDisconnected := true }

/-- Witness for C5 at a concrete live gateway state. -/
theorem stop_unregisters_before_uninit_witness :
    liveState.v2Client = true ∧
    ((stopRun liveState).2.2 =
      [NativeOp.offReceiveMessages, NativeOp.offLoginStatus,
        NativeOp.offKickedOffline, NativeOp.offLoginFailed,
        NativeOp.offDisconnected, NativeOp.uninitClient] ∧
    ((stopRun liveState).2.2.indexOf NativeOp.offReceiveMessages <
      (stopRun liveState).2.2.indexOf NativeOp.uninitClient ∧
     (stopRun liveState).2.2.indexOf NativeOp.offLoginStatus <
      (stopRun liveState).2.2.indexOf NativeOp.uninitClient ∧
     (stopRun liveState).2.2.indexOf NativeOp.offKickedOffline <
      (stopRun liveState).2.2.indexOf NativeOp.uninitClient ∧
     (stopRun liveState).2.2.indexOf NativeOp.offLoginFailed <
      (stopRun liveState).2.2.indexOf NativeOp.uninitClient ∧
     (stopRun liveState).2.2.indexOf NativeOp.offDisconnected <
      (stopRun liveState).2.2.indexOf NativeOp.uninitClient) ∧
    (stopRun liveState).1.v2Client = false ∧
    (stopRun liveState).1.loginService = false ∧
    (stopRun liveState).1.messageService = false ∧
    (stopRun liveState).1.messageCreator = false ∧
    (stopRun liveState).1.conversationIdUtil = false ∧
    (stopRun liveState).1.reconnectTimer = false ∧
    (stopRun liveState).1.status.connected = false) :=
  ⟨rfl, stop_unregisters_before_uninit liveState rfl rfl rfl rfl rfl rfl rfl rfl⟩

/-- Events emitted on the gateway event emitter that the start error path
can produce. -/
inductive GwEvent where
  | errorEvt (message : String)
deriving DecidableEq, Repr

/-- Behaviour of the native SDK during one start attempt: the optional
description of an `init` failure, and whether the two service accessors
return usable services. -/
structure SdkOutcome where
  initError : Option String
  servicesAvailable : Bool
deriving DecidableEq, Repr

/-- Embedding of the catch block of `startInternal` (nimGateway.ts lines
471-485): save the config, run cleanup, restore the config so reconnect
stays possible, record the error text in the status, emit an error event
and re-raise. -/
def startCatch (st : GwState) (message : String) :
    GwState × Option String × List GwEvent :=
  let savedConfig := st.config
  let st1 := cleanupRefs st
  let st2 := { st1 with config := savedConfig }
  let st3 := { st2 with
    status :=
      { connected := false
        startedAt := none
        lastError := some message
        botAccount :=
          match savedConfig with
          | some c => if c.account = "" then none else some c.account
          | none => none
        lastInboundAt := none
        lastOutboundAt := none } }
  (st3, some message, [GwEvent.errorEvt message])

/-- Embedding of `startInternal` (nimGateway.ts lines 304-486).  Returns
the new state, the exception propagated to the caller if any, and the
emitted events.  The asynchronous login request is issued but not
awaited, so the success path returns with a disconnected status awaiting
the login-status callback. -/
def startInternalRun (st : GwState) (config : NimConfig) (sdk : SdkOutcome) :
    GwState × Option String × List GwEvent :=
  if st.v2Client then (st, some "NIM gateway already running", [])
  else
    let st1 := { st with config := some config }
    if config.enabled = false then (st1, none, [])
    else if config.appKey = "" ∨ config.account = "" ∨ config.token = "" then
      (st1, some "NIM appKey, account and token are required", [])
    else
      let st2 := { st1 with v2Client := true }
      match sdk.initError with
      | some desc =>
        startCatch st2 ("NIM SDK V2 initialization failed: " ++ desc)
      | none =>
        let st3 := { st2 with
          loginService := sdk.servicesAvailable
          messageService := sdk.servicesAvailable
          messageCreator := true
          conversationIdUtil := true }
        if st3.loginService = false ∨ st3.messageService = false then
          startCatch st3 "NIM SDK V2 services not available"
        else
          let st4 := { st3 with
            boundOnReceiveMessages := true
            boundOnLoginStatus := true
            boundOnKickedOffline := true
            boundOnLoginFailed := true
            boundOnDisconnected := true }
          let st5 := { st4 with
            status :=
              { connected := false
                startedAt := none
                lastError := none
                botAccount := some config.account
                lastInboundAt := none
                lastOutboundAt := none } }
          (st5, none, [])

/-- A well-behaved SDK outcome: init succeeds and services are available. -/
def sdkOk : SdkOutcome :=
  { initError := none, servicesAvailable := true }

/-- A fully populated enabled configuration for concrete witnesses. -/
def enabledConfig : NimConfig :=
  { enabled := true
    appKey := "appkey"
    account := "bot"
    token := "tok"
    accountWhitelist := none
    debug := false }

/-- C3: start fails in exactly these cases, checked in this order: an
existing native handle gives the already-running error; a disabled config
is stored and start returns successfully without a handle; missing
credentials give the credentials error; otherwise, with a well-behaved
SDK, start succeeds and creates the handle. -/
theorem startInternal_error_cases (st : GwState) (config : NimConfig)
    (sdk : SdkOutcome) (hsdk : sdk.initError = none ∧ sdk.servicesAvailable = true) :
    (st.v2Client = true →
      startInternalRun st config sdk = (st, some "NIM gateway already running", [])) ∧
    (st.v2Client = false → config.enabled = false →
      startInternalRun st config sdk = ({ st with config := some config }, none, [])) ∧
    (st.v2Client = false → config.enabled = true →
      (config.appKey = "" ∨ config.account = "" ∨ config.token = "") →
      startInternalRun st config sdk =
        ({ st with config := some config },
          some "NIM appKey, account and token are required", [])) ∧
    (st.v2Client = false → config.enabled = true →
      config.appKey ≠ "" → config.account ≠ "" → config.token ≠ "" →
      (startInternalRun st config sdk).2.1 = none ∧
      (startInternalRun st config sdk).1.v2Client = true) := by
  obtain ⟨hinit, hserv⟩ := hsdk
  refine ⟨?_, ?_, ?_, ?_⟩
  · intro hv
    simp [startInternalRun, hv]
  · intro hv he
    simp [startInternalRun, hv, he]
  · intro hv he hmiss
    simp [startInternalRun, hv, he, hmiss]
  · intro hv he h1 h2 h3
    constructor <;> simp [startInternalRun, hv, he, h1, h2, h3, hinit, hserv]

/-- Witness for C3 at the fresh state, a full config and a healthy SDK. -/
theorem startInternal_error_cases_witness :
    (sdkOk.initError = none ∧ sdkOk.servicesAvailable = true) ∧
    ((idleState.v2Client = true →
      startInternalRun idleState enabledConfig sdkOk =
        (idleState, some "NIM gateway already running", [])) ∧
    (idleState.v2Client = false → enabledConfig.enabled = false →
      startInternalRun idleState enabledConfig sdkOk =
        ({ idleState with config := some enabledConfig }, none, [])) ∧
    (idleState.v2Client = false → enabledConfig.enabled = true →
      (enabledConfig.appKey = "" ∨ enabledConfig.account = "" ∨ enabledConfig.token = "") →
      startInternalRun idleState enabledConfig sdkOk =
        ({ idleState with config := some enabledConfig },
          some "NIM appKey, account and token are required", [])) ∧
    (idleState.v2Client = false → enabledConfig.enabled = true →
      enabledConfig.appKey ≠ "" → enabledConfig.account ≠ "" → enabledConfig.token ≠ "" →
      (startInternalRun idleState enabledConfig sdkOk).2.1 = none ∧
      (startInternalRun idleState enabledConfig sdkOk).1.v2Client = true)) :=
  ⟨⟨rfl, rfl⟩, startInternal_error_cases idleState enabledConfig sdkOk ⟨rfl, rfl⟩⟩

/-- C6: when the start body fails at native init or service setup, the
error is caught, cleanup nulls every native reference, the stored config
is preserved, the status records the error text with connected false, an
error event carrying the same text is emitted, and the same exception is
re-raised to the caller. -/
theorem startInternal_failure_cleanup (st : GwState) (config : NimConfig)
    (sdk : SdkOutcome) (hv : st.v2Client = false) (he : config.enabled = true)
    (h1 : config.appKey ≠ "") (h2 : config.account ≠ "") (h3 : config.token ≠ "")
    (hfail : sdk.initError ≠ none ∨ sdk.servicesAvailable = false) :
    ∃ message,
      startInternalRun st config sdk =
        ({ st with
            config := some config
            v2Client := false
            loginService := false
            messageService := false
            messageCreator := false
            conversationIdUtil := false
            cleanupInterval := false
            status :=
              { connected := false
                startedAt := none
                lastError := some message
                botAccount := some config.account
                lastInboundAt := none
                lastOutboundAt := none } },
          some message, [GwEvent.errorEvt message]) ∧
      (∀ desc, sdk.initError = some desc →
        message = "NIM SDK V2 initialization failed: " ++ desc) := by
  cases hinit : sdk.initError with
  | some desc =>
    refine ⟨"NIM SDK V2 initialization failed: " ++ desc, ?_, ?_⟩
    · simp [startInternalRun, startCatch, cleanupRefs, hv, he, h1, h2, h3, hinit, h2]
    · intro d hd
      cases hd
      rfl
  | none =>
    have hserv : sdk.servicesAvailable = false := by
      rcases hfail with hne | hs
      · exact absurd hinit hne
      · exact hs
    refine ⟨"NIM SDK V2 services not available", ?_, ?_⟩
    · simp [startInternalRun, startCatch, cleanupRefs, hv, he, h1, h2, h3, hinit, hserv]
    · intro d hd
      cases hd

/-- A faulty SDK outcome whose init call fails, for the C6 witness. -/
def sdkInitFails : SdkOutcome :=
  { initError := some "boom", servicesAvailable := true }

/-- Witness for C6 at the fresh state and a failing SDK init. -/
theorem startInternal_failure_cleanup_witness :
    (idleState.v2Client = false ∧ enabledConfig.enabled = true ∧
      enabledConfig.appKey ≠ "" ∧ enabledConfig.account ≠ "" ∧
      enabledConfig.token ≠ "" ∧ sdkInitFails.initError ≠ none) ∧
    (∃ message,
      startInternalRun idleState enabledConfig sdkInitFails =
        ({ idleState with
            config := some enabledConfig
            v2Client := false
            loginService := false
            messageService := false
            messageCreator := false
            conversationIdUtil := false
            cleanupInterval := false
            status :=
              { connected := false
                startedAt := none
                lastError := some message
                botAccount := some enabledConfig.account
                lastInboundAt := none
                lastOutboundAt := none } },
          some message, [GwEvent.errorEvt message]) ∧
      (∀ desc, sdkInitFails.initError = some desc →
        message = "NIM SDK V2 initialization failed: " ++ desc)) :=
  ⟨by simp [idleState, enabledConfig, sdkInitFails],
    startInternal_failure_cleanup idleState enabledConfig sdkInitFails rfl rfl
      (by simp [enabledConfig]) (by simp [enabledConfig]) (by simp [enabledConfig])
      (Or.inl (by simp [sdkInitFails]))⟩

/-- Media attachment type tags (IMMediaType in types.ts). -/
inductive IMMediaType where
  | image
  | audio
  | video
  | document
deriving DecidableEq, Repr

/-- A downloaded media attachment (IMMediaAttachment in types.ts, fields
as produced by downloadNimMedia in nimMedia.ts). -/
structure IMMediaAttachment where
  type : IMMediaType
  localPath : String
  mimeType : String
  fileName : String
  fileSize : Nat
  width : Option Nat
  height : Option Nat
  duration : Option Nat
deriving DecidableEq, Repr

/-- A normalized inbound message (IMMessage in types.ts, fields as
constructed by handleIncomingMessage). -/
structure IMMessage where
  platform : String
  messageId : String
  conversationId : String
  senderId : String
  content : String
  chatType : String
  timestamp : Nat
  attachments : Option (List IMMediaAttachment)
deriving DecidableEq, Repr

/-- Attachment fields of a raw V2 SDK message (`parseV2Attachment`,
nimGateway.ts lines 641-653); a missing url is the empty string, which is
what the JS truthiness test observes. -/
structure RawAttachment where
  url : String
  name : Option String
  size : Option Nat
  width : Option Nat
  height : Option Nat
  duration : Option Nat
deriving DecidableEq, Repr

/-- A raw V2 SDK message event as read by handleIncomingMessage; absent
string fields are embedded as the empty string and an absent createTime
as zero, both of which are exactly what the JS falsiness tests observe. -/
structure RawMsg where
  messageServerId : String
  messageClientId : String
  senderId : String
  messageType : Int
  conversationId : String
  text : String
  createTime : Nat
  attachment : Option RawAttachment
deriving DecidableEq, Repr

/-- Embedding of `parseV2Attachment` (nimGateway.ts lines 641-653). -/
def parseV2Attachment (msg : RawMsg) : Option RawAttachment :=
  msg.attachment

/-- Embedding of `inferMediaPlaceholder` (nimMedia.ts lines 1078-1091),
taking the already-converted message type tag at its only call site. -/
def inferMediaPlaceholder (messageType : NimMessageType) : String :=
  match messageType with
  | .image => "[图片]"
  | .audio => "[语音消息]"
  | .video => "[视频]"
  | .file => "[文件]"
  | _ => "[多媒体消息]"

/-- Message id extraction (nimGateway.ts line 661): prefer the server
assigned id, else the client id, else the empty string. -/
def msgIdOf (msg : RawMsg) : String :=
  if msg.messageServerId ≠ "" then msg.messageServerId
  else if msg.messageClientId ≠ "" then msg.messageClientId
  else ""

/-- Self-message test (nimGateway.ts line 665): a config is stored and
the sender equals the configured account. -/
def selfCheck (config : Option NimConfig) (senderId : String) : Bool :=
  match config with
  | some c => senderId = c.account
  | none => false

/-- Allow-list entries (nimGateway.ts lines 672-675): split the comma
joined string, trim each entry, drop empties. -/
def whitelistEntries (w : String) : List String :=
  ((jsSplitChar ',' w).map jsTrim).filter (fun s => s ≠ "")

/-- Allow-list rejection test (nimGateway.ts lines 671-684): a non-empty
allow-list string is configured, it splits to a non-empty entry list, and
the sender is not among the entries. -/
def whitelistBlocks (config : Option NimConfig) (senderId : String) : Bool :=
  match config with
  | none => false
  | some c =>
    match c.accountWhitelist with
    | none => false
    | some w =>
      if w = "" then false
      else
        let whitelist := whitelistEntries w
        if whitelist.length > 0 then ¬ (senderId ∈ whitelist) else false

/-- Outcome of one handleIncomingMessage invocation: either a normalized
message was delivered to the message event and callback, or the event was
dropped at one of the pipeline filters. -/
inductive InboundOutcome where
  | delivered (message : IMMessage)
  | dropSelf
  | dropWhitelist
  | dropDuplicate
  | dropUnsupported
  | dropNonP2p
  | dropEmptyText
deriving DecidableEq, Repr

/-- Embedding of `handleIncomingMessage` (nimGateway.ts lines 659-803) up
to the callback invocation.  The media download performed for attachment
urls is abstracted by the `download` parameter (downloadNimMedia never
raises and returns `none` on failure); `now` stands for Date.now(). -/
def handleIncomingMessage (config : Option NimConfig)
    (download : String → Option IMMediaAttachment) (now : Nat)
    (cache : DedupCache) (msg : RawMsg) : InboundOutcome × DedupCache :=
  let msgId := msgIdOf msg
  let senderId := msg.senderId
  if selfCheck config senderId then (InboundOutcome.dropSelf, cache)
  else if whitelistBlocks config senderId then (InboundOutcome.dropWhitelist, cache)
  else
    let dedup := isMessageProcessed msgId now cache
    if dedup.1 then (InboundOutcome.dropDuplicate, dedup.2)
    else
      let msgType := convertMessageType msg.messageType
      if supportedTypes.contains msgType then
        if (parseConversationId msg.conversationId).1 ≠ SessionType.p2p then
          (InboundOutcome.dropNonP2p, dedup.2)
        else if msgType = NimMessageType.text ∧ jsTrim msg.text = "" then
          (InboundOutcome.dropEmptyText, dedup.2)
        else
          let contentAttach : String × List IMMediaAttachment :=
            if msgType = NimMessageType.text then (msg.text, [])
            else
              let attach := parseV2Attachment msg
              let placeholder := inferMediaPlaceholder msgType
              let attachUrl :=
                match attach with
                | some a => a.url
                | none => ""
              let content :=
                if attachUrl ≠ "" then placeholder ++ " " ++ attachUrl else placeholder
              let attachments :=
                if attachUrl ≠ "" then
                  match download attachUrl with
                  | some d => [d]
                  | none => []
                else []
              (content, attachments)
          (InboundOutcome.delivered
            { platform := "nim"
              messageId := msgId
              conversationId :=
                if msg.conversationId ≠ "" then msg.conversationId else senderId
              senderId := senderId
              content := contentAttach.1
              chatType := "direct"
              timestamp := if msg.createTime ≠ 0 then msg.createTime else now
              attachments :=
                if contentAttach.2.length > 0 then some contentAttach.2 else none },
            dedup.2)
      else (InboundOutcome.dropUnsupported, dedup.2)

/-- A delivered outcome implies every pipeline guard passed and the cache
was updated by the dedup step. -/
theorem handleIncomingMessage_delivered_inv
    {config : Option NimConfig} {download : String → Option IMMediaAttachment}
    {now : Nat} {cache : DedupCache} {msg : RawMsg} {out : IMMessage}
    (h : (handleIncomingMessage config download now cache msg).1 =
      InboundOutcome.delivered out) :
    selfCheck config msg.senderId = false ∧
    whitelistBlocks config msg.senderId = false ∧
    (isMessageProcessed (msgIdOf msg) now cache).1 = false ∧
    supportedTypes.contains (convertMessageType msg.messageType) = true ∧
    (parseConversationId msg.conversationId).1 = SessionType.p2p ∧
    ¬ (convertMessageType msg.messageType = NimMessageType.text ∧
        jsTrim msg.text = "") ∧
    (handleIncomingMessage config download now cache msg).2 =
      (isMessageProcessed (msgIdOf msg) now cache).2 := by
  by_cases h1 : selfCheck config msg.senderId = true
  · exfalso
    simp [handleIncomingMessage, h1] at h
  · by_cases h2 : whitelistBlocks config msg.senderId = true
    · exfalso
      simp [handleIncomingMessage, h1, h2] at h
    · by_cases h3 : (isMessageProcessed (msgIdOf msg) now cache).1 = true
      · exfalso
        simp [handleIncomingMessage, h1, h2, h3] at h
      · by_cases h4 : supportedTypes.contains (convertMessageType msg.messageType) = true
        · by_cases h5 : (parseConversationId msg.conversationId).1 = SessionType.p2p
          · by_cases h6 : convertMessageType msg.messageType = NimMessageType.text ∧
                jsTrim msg.text = ""
            · obtain ⟨h6a, h6b⟩ := h6
              exfalso
              simp [handleIncomingMessage, h1, h2, h3, h6a, h6b, supportedTypes] at h
              split at h <;> simp_all
            · refine ⟨by simpa using h1, by simpa using h2, by simpa using h3,
                h4, h5, h6, ?_⟩
              simp [handleIncomingMessage, h1, h2, h3, h4, h5, h6]
          · exfalso
            simp [handleIncomingMessage, h1, h2, h3, h4, h5] at h
        · exfalso
          simp [handleIncomingMessage, h1, h2, h3, h4] at h

/-- When every pipeline guard passes, the handler delivers a message and
returns the dedup-updated cache. -/
theorem handleIncomingMessage_passes
    (config : Option NimConfig) (download : String → Option IMMediaAttachment)
    (now : Nat) (cache : DedupCache) (msg : RawMsg)
    (h1 : selfCheck config msg.senderId = false)
    (h2 : whitelistBlocks config msg.senderId = false)
    (h3 : (isMessageProcessed (msgIdOf msg) now cache).1 = false)
    (h4 : supportedTypes.contains (convertMessageType msg.messageType) = true)
    (h5 : (parseConversationId msg.conversationId).1 = SessionType.p2p)
    (h6 : ¬ (convertMessageType msg.messageType = NimMessageType.text ∧
        jsTrim msg.text = "")) :
    ∃ out, handleIncomingMessage config download now cache msg =
      (InboundOutcome.delivered out, (isMessageProcessed (msgIdOf msg) now cache).2) := by
  simp [handleIncomingMessage, h1, h2, h3, h4, h5, h6]

/-- A duplicate dedup hit makes the handler drop the event, provided the
earlier self and allow-list filters pass. -/
theorem handleIncomingMessage_dup_drops
    (config : Option NimConfig) (download : String → Option IMMediaAttachment)
    (now : Nat) (cache : DedupCache) (msg : RawMsg)
    (h1 : selfCheck config msg.senderId = false)
    (h2 : whitelistBlocks config msg.senderId = false)
    (hdup : (isMessageProcessed (msgIdOf msg) now cache).1 = true) :
    (handleIncomingMessage config download now cache msg).1 =
      InboundOutcome.dropDuplicate := by
  simp [handleIncomingMessage, h1, h2, hdup]

/-- C1: an event stream carrying the same message id delivers exactly one
message within the TTL window and delivers again after the TTL has
elapsed; surviving cache entries are always within the TTL (eviction is
performed lazily on each lookup), and a duplicate hit does not refresh
the first-seen timestamp. -/
theorem dedup_delivers_once (config : Option NimConfig)
    (download : String → Option IMMediaAttachment) (now1 now2 : Nat)
    (cache : DedupCache) (msg : RawMsg) (out1 : IMMessage)
    (hdeliv : (handleIncomingMessage config download now1 cache msg).1 =
      InboundOutcome.delivered out1)
    (horder : now1 ≤ now2) :
    (now2 - now1 ≤ MESSAGE_DEDUP_TTL →
      (handleIncomingMessage config download now2
        (handleIncomingMessage config download now1 cache msg).2 msg).1 =
        InboundOutcome.dropDuplicate) ∧
    (MESSAGE_DEDUP_TTL < now2 - now1 →
      ∃ out2, (handleIncomingMessage config download now2
        (handleIncomingMessage config download now1 cache msg).2 msg).1 =
        InboundOutcome.delivered out2) ∧
    (∀ id now c k t, (isMessageProcessed id now c).2 k = some t →
      now - t ≤ MESSAGE_DEDUP_TTL) ∧
    (∀ id now c t, c id = some t → now - t ≤ MESSAGE_DEDUP_TTL →
      (isMessageProcessed id now c).2 id = some t) := by
  obtain ⟨h1, h2, h3, h4, h5, h6, hc2⟩ := handleIncomingMessage_delivered_inv hdeliv
  have hrec : (handleIncomingMessage config download now1 cache msg).2 (msgIdOf msg) =
      some now1 := by
    rw [hc2]
    exact isMessageProcessed_records h3
  refine ⟨?_, ?_, ?_, ?_⟩
  · intro httl
    have hdup := isMessageProcessed_no_refresh (msgIdOf msg) now2 now1
      (handleIncomingMessage config download now1 cache msg).2 hrec (by omega)
    exact handleIncomingMessage_dup_drops config download now2
      (handleIncomingMessage config download now1 cache msg).2 msg h1 h2 hdup.1
  · intro httl
    have hclean : cleanupProcessedMessages now2
        (handleIncomingMessage config download now1 cache msg).2 (msgIdOf msg) = none := by
      simp only [cleanupProcessedMessages, hrec]
      rw [if_pos (by omega)]
    have hfresh2 : (isMessageProcessed (msgIdOf msg) now2
        (handleIncomingMessage config download now1 cache msg).2).1 = false := by
      simp only [isMessageProcessed, hclean]
    obtain ⟨out2, hout2⟩ := handleIncomingMessage_passes config download now2
      (handleIncomingMessage config download now1 cache msg).2 msg h1 h2 hfresh2 h4 h5 h6
    exact ⟨out2, by rw [hout2]⟩
  · intro id now c k t h
    exact isMessageProcessed_evicts id now c k t h
  · intro id now c t hin hfresh
    exact (isMessageProcessed_no_refresh id now t c hin hfresh).2

/-- A gateway config used by the inbound witnesses. -/
def witnessConfig : Option NimConfig :=
  some
    { enabled := true
      appKey := "appkey"
      account := "bot"
      token := "tok"
      accountWhitelist := none
      debug := false }

/-- A plain text raw message used by the inbound witnesses. -/
def witnessMsg : RawMsg :=
  { messageServerId := "m1"
    messageClientId := ""
    senderId := "alice"
    messageType := 0
    conversationId := "0|1|alice"
    text := "hi"
    createTime := 5
    attachment := none }

/-- A download function that always fails, for witnesses. -/
def noDownload : String → Option IMMediaAttachment := fun _ => none

/-- The empty dedup cache, for witnesses. -/
def emptyCache : DedupCache := fun _ => none

/-- The message delivered for witnessMsg on the first call. -/
def witnessDelivered : IMMessage :=
  { platform := "nim"
    messageId := "m1"
    conversationId := "0|1|alice"
    senderId := "alice"
    content := "hi"
    chatType := "direct"
    timestamp := 5
    attachments := none }

/-- Witness for C1 at a concrete message, delivered at time 100 and
repeated at time 200 (inside the TTL window). -/
theorem dedup_delivers_once_witness :
    ((handleIncomingMessage witnessConfig noDownload 100 emptyCache witnessMsg).1 =
      InboundOutcome.delivered witnessDelivered ∧ (100 : Nat) ≤ 200) ∧
    ((200 - 100 ≤ MESSAGE_DEDUP_TTL →
      (handleIncomingMessage witnessConfig noDownload 200
        (handleIncomingMessage witnessConfig noDownload 100 emptyCache witnessMsg).2
        witnessMsg).1 = InboundOutcome.dropDuplicate) ∧
    (MESSAGE_DEDUP_TTL < 200 - 100 →
      ∃ out2, (handleIncomingMessage witnessConfig noDownload 200
        (handleIncomingMessage witnessConfig noDownload 100 emptyCache witnessMsg).2
        witnessMsg).1 = InboundOutcome.delivered out2) ∧
    (∀ id now c k t, (isMessageProcessed id now c).2 k = some t →
      now - t ≤ MESSAGE_DEDUP_TTL) ∧
    (∀ id now c t, c id = some t → now - t ≤ MESSAGE_DEDUP_TTL →
      (isMessageProcessed id now c).2 id = some t)) :=
  ⟨⟨by decide, by decide⟩,
    dedup_delivers_once witnessConfig noDownload 100 200 emptyCache witnessMsg
      witnessDelivered (by decide) (by decide)⟩

/-- An allow-list drop can only happen when the allow-list test blocks
the sender. -/
theorem handleIncomingMessage_dropWhitelist_inv
    {config : Option NimConfig} {download : String → Option IMMediaAttachment}
    {now : Nat} {cache : DedupCache} {msg : RawMsg}
    (h : (handleIncomingMessage config download now cache msg).1 =
      InboundOutcome.dropWhitelist) :
    whitelistBlocks config msg.senderId = true := by
  by_cases h2 : whitelistBlocks config msg.senderId = true
  · exact h2
  · exfalso
    by_cases h1 : selfCheck config msg.senderId = true
    · simp [handleIncomingMessage, h1] at h
    · by_cases h3 : (isMessageProcessed (msgIdOf msg) now cache).1 = true
      · simp [handleIncomingMessage, h1, h2, h3] at h
      · by_cases h4 : supportedTypes.contains (convertMessageType msg.messageType) = true
        · by_cases h5 : (parseConversationId msg.conversationId).1 = SessionType.p2p
          · by_cases h6 : convertMessageType msg.messageType = NimMessageType.text ∧
                jsTrim msg.text = ""
            · obtain ⟨h6a, h6b⟩ := h6
              simp [handleIncomingMessage, h1, h2, h3, h6a, h6b, supportedTypes] at h
              split at h <;> simp_all
            · simp [handleIncomingMessage, h1, h2, h3, h4, h5, h6] at h
          · simp [handleIncomingMessage, h1, h2, h3, h4, h5] at h
        · simp [handleIncomingMessage, h1, h2, h3, h4] at h

/-- An unset or effectively empty allow-list never blocks a sender. -/
theorem whitelistBlocks_no_filter (config : NimConfig) (senderId : String)
    (h : config.accountWhitelist = none ∨
      ∃ w', config.accountWhitelist = some w' ∧ whitelistEntries w' = []) :
    whitelistBlocks (some config) senderId = false := by
  rcases h with h | ⟨w', hw', hent⟩
  · simp [whitelistBlocks, h]
  · by_cases hne : w' = ""
    · simp [whitelistBlocks, hw', hne]
    · simp [whitelistBlocks, hw', hne, hent]

/-- C8: with a configured allow-list that splits to a non-empty entry
set, an event is delivered only when the sender is in the set, a
non-self sender outside the set is dropped by the allow-list, a sender
inside the set is never dropped by the allow-list, and with an unset or
effectively empty allow-list no event is ever dropped by the allow-list. -/
theorem whitelist_filtering (config : NimConfig) (w : String)
    (download : String → Option IMMediaAttachment) (now : Nat)
    (cache : DedupCache) (msg : RawMsg)
    (hw : config.accountWhitelist = some w) (hne : w ≠ "")
    (hnonempty : whitelistEntries w ≠ []) :
    (∀ out, (handleIncomingMessage (some config) download now cache msg).1 =
        InboundOutcome.delivered out → msg.senderId ∈ whitelistEntries w) ∧
    (msg.senderId ≠ config.account → msg.senderId ∉ whitelistEntries w →
      (handleIncomingMessage (some config) download now cache msg).1 =
        InboundOutcome.dropWhitelist) ∧
    (msg.senderId ∈ whitelistEntries w →
      (handleIncomingMessage (some config) download now cache msg).1 ≠
        InboundOutcome.dropWhitelist) ∧
    (∀ config' : NimConfig,
      (config'.accountWhitelist = none ∨
        ∃ w', config'.accountWhitelist = some w' ∧ whitelistEntries w' = []) →
      (handleIncomingMessage (some config') download now cache msg).1 ≠
        InboundOutcome.dropWhitelist) := by
  have hlen : 0 < (whitelistEntries w).length := List.length_pos.mpr hnonempty
  refine ⟨?_, ?_, ?_, ?_⟩
  · intro out hdel
    have hb := (handleIncomingMessage_delivered_inv hdel).2.1
    simp only [whitelistBlocks, hw] at hb
    rw [if_neg hne, if_pos hlen] at hb
    simpa using hb
  · intro hsender hnotmem
    have hself : selfCheck (some config) msg.senderId = false := by
      simp [selfCheck, hsender]
    have hb : whitelistBlocks (some config) msg.senderId = true := by
      simp only [whitelistBlocks, hw]
      rw [if_neg hne, if_pos hlen]
      simpa using hnotmem
    simp [handleIncomingMessage, hself, hb]
  · intro hmem hcontra
    have hb := handleIncomingMessage_dropWhitelist_inv hcontra
    simp only [whitelistBlocks, hw] at hb
    rw [if_neg hne, if_pos hlen] at hb
    simp [hmem] at hb
  · intro config' hnofilter hcontra
    have hb := handleIncomingMessage_dropWhitelist_inv hcontra
    rw [whitelistBlocks_no_filter config' msg.senderId hnofilter] at hb
    exact Bool.false_ne_true hb

/-- A config with allow-list string a,b for the C8 witness. -/
def wlConfig : NimConfig :=
  { enabled := true
    appKey := "appkey"
    account := "bot"
    token := "tok"
    accountWhitelist := some "a,b"
    debug := false }

/-- A text message from sender a for the C8 witness. -/
def wlMsg : RawMsg :=
  { messageServerId := "m2"
    messageClientId := ""
    senderId := "a"
    messageType := 0
    conversationId := "0|1|a"
    text := "hello"
    createTime := 7
    attachment := none }

/-- Witness for C8 with allow-list a,b and sender a. -/
theorem whitelist_filtering_witness :
    (wlConfig.accountWhitelist = some "a,b" ∧ ("a,b" : String) ≠ "" ∧
      whitelistEntries "a,b" ≠ []) ∧
    ((∀ out, (handleIncomingMessage (some wlConfig) noDownload 0 emptyCache wlMsg).1 =
        InboundOutcome.delivered out → wlMsg.senderId ∈ whitelistEntries "a,b") ∧
    (wlMsg.senderId ≠ wlConfig.account → wlMsg.senderId ∉ whitelistEntries "a,b" →
      (handleIncomingMessage (some wlConfig) noDownload 0 emptyCache wlMsg).1 =
        InboundOutcome.dropWhitelist) ∧
    (wlMsg.senderId ∈ whitelistEntries "a,b" →
      (handleIncomingMessage (some wlConfig) noDownload 0 emptyCache wlMsg).1 ≠
        InboundOutcome.dropWhitelist) ∧
    (∀ config' : NimConfig,
      (config'.accountWhitelist = none ∨
        ∃ w', config'.accountWhitelist = some w' ∧ whitelistEntries w' = []) →
      (handleIncomingMessage (some config') noDownload 0 emptyCache wlMsg).1 ≠
        InboundOutcome.dropWhitelist)) :=
  ⟨⟨rfl, by decide, by decide⟩,
    whitelist_filtering wlConfig "a,b" noDownload 0 emptyCache wlMsg rfl
      (by decide) (by decide)⟩

/-- A media marker parsed out of outbound reply text (type tag and local
file path), as produced by parseMediaMarkers. -/
structure MediaMarker where
  type : String
  path : String
deriving DecidableEq, Repr

/-- Observable send-side operations of sendReplyWithMedia, in program
order: a chunked text send, a media send attempt that succeeds or fails
(the failure is caught and logged), a skip of a missing file, and the
fixed inter-message pacing delay. -/
inductive SendOp where
  | sendChunkedText (text : String)
  | mediaSent (path : String)
  | mediaFailed (path : String)
  | skipMissing (path : String)
  | pacingDelay (ms : Nat)
deriving DecidableEq, Repr

/-- Embedding of the marker loop of `sendReplyWithMedia` (nimGateway.ts
lines 886-906): for each marker, skip it when the file does not exist,
otherwise attempt the media send with any failure caught; wait the pacing
delay after every marker but the last. -/
def sendMarkersTrace (fileExists sendOk : String → Bool) :
    List MediaMarker → List SendOp
  | [] => []
  | [m] =>
    if fileExists m.path then
      if sendOk m.path then [SendOp.mediaSent m.path]
      else [SendOp.mediaFailed m.path]
    else [SendOp.skipMissing m.path]
  | m :: m2 :: rest =>
    (if fileExists m.path then
      if sendOk m.path then [SendOp.mediaSent m.path]
      else [SendOp.mediaFailed m.path]
    else [SendOp.skipMissing m.path]) ++
      SendOp.pacingDelay 100 :: sendMarkersTrace fileExists sendOk (m2 :: rest)

/-- Embedding of `sendReplyWithMedia` (nimGateway.ts lines 865-907).  The
marker parser and the marker stripper live outside this repository
(dingtalkMediaParser), so they are abstracted as the `parse` and `strip`
parameters; `fileExists` stands for fs.existsSync and `sendOk` for the
success of the native media send. -/
def sendReplyWithMedia (parse : String → List MediaMarker)
    (strip : String → List MediaMarker → String)
    (fileExists sendOk : String → Bool) (text : String) : List SendOp :=
  let markers := parse text
  if markers.isEmpty then [SendOp.sendChunkedText text]
  else
    let strippedText := strip text markers
    (if jsTrim strippedText ≠ "" then
      [SendOp.sendChunkedText strippedText, SendOp.pacingDelay 100]
    else []) ++ sendMarkersTrace fileExists sendOk markers

/-- The file paths whose media send was attempted, in trace order. -/
def attemptedMediaPaths (trace : List SendOp) : List String :=
  trace.filterMap (fun op =>
    match op with
    | SendOp.mediaSent p => some p
    | SendOp.mediaFailed p => some p
    | _ => none)

/-- The marker loop attempts exactly the existing files, in marker order. -/
theorem attemptedMediaPaths_sendMarkersTrace (fileExists sendOk : String → Bool) :
    ∀ ms : List MediaMarker,
      attemptedMediaPaths (sendMarkersTrace fileExists sendOk ms) =
        (ms.filter (fun m => fileExists m.path)).map (fun m => m.path) := by
  intro ms
  induction ms with
  | nil => rfl
  | cons m rest ih =>
    cases rest with
    | nil =>
      by_cases hfe : fileExists m.path <;>
        by_cases hok : sendOk m.path <;>
          simp [sendMarkersTrace, attemptedMediaPaths, hfe, hok]
    | cons m2 rest2 =>
      by_cases hfe : fileExists m.path <;>
        by_cases hok : sendOk m.path <;>
          simp_all [sendMarkersTrace, attemptedMediaPaths, hfe, hok]

/-- C7: with markers present, sendReplyWithMedia first sends the stripped
text as chunked text (only when non-empty after trimming) followed by the
pacing delay, then processes the markers; the attempted media sends are
exactly the markers whose file exists, in marker order; and the set and
order of attempted markers is independent of individual send failures,
so one failed marker never aborts the rest. -/
theorem sendReplyWithMedia_spec (parse : String → List MediaMarker)
    (strip : String → List MediaMarker → String)
    (fileExists sendOk sendOk2 : String → Bool) (text : String)
    (hmk : parse text ≠ []) :
    (jsTrim (strip text (parse text)) ≠ "" →
      sendReplyWithMedia parse strip fileExists sendOk text =
        SendOp.sendChunkedText (strip text (parse text)) :: SendOp.pacingDelay 100 ::
          sendMarkersTrace fileExists sendOk (parse text)) ∧
    (jsTrim (strip text (parse text)) = "" →
      sendReplyWithMedia parse strip fileExists sendOk text =
        sendMarkersTrace fileExists sendOk (parse text)) ∧
    (∀ ms : List MediaMarker,
      attemptedMediaPaths (sendMarkersTrace fileExists sendOk ms) =
        (ms.filter (fun m => fileExists m.path)).map (fun m => m.path)) ∧
    (∀ ms : List MediaMarker,
      attemptedMediaPaths (sendMarkersTrace fileExists sendOk ms) =
        attemptedMediaPaths (sendMarkersTrace fileExists sendOk2 ms)) := by
  have hempty : (parse text).isEmpty = false := by
    cases hp : parse text with
    | nil => exact absurd hp hmk
    | cons a as => rfl
  refine ⟨?_, ?_, attemptedMediaPaths_sendMarkersTrace fileExists sendOk, ?_⟩
  · intro htrim
    simp [sendReplyWithMedia, hempty, htrim]
  · intro htrim
    simp [sendReplyWithMedia, hempty, htrim]
  · intro ms
    rw [attemptedMediaPaths_sendMarkersTrace fileExists sendOk ms,
      attemptedMediaPaths_sendMarkersTrace fileExists sendOk2 ms]

/-- The marker parser output for the C7 witness: an image marker and a
document marker, mirroring the reply text scenario from the design. -/
def witnessParse : String → List MediaMarker :=
  fun _ =>
    [{ type := "image", path := "/tmp/a.png" },
     { type := "file", path := "/tmp/b.pdf" }]

/-- The marker stripper output for the C7 witness. -/
def witnessStrip : String → List MediaMarker → String :=
  fun _ _ => "Here:  and "

/-- All files exist for the C7 witness. -/
def allFilesExist : String → Bool := fun _ => true

/-- All media sends succeed for the C7 witness. -/
def allSendsOk : String → Bool := fun _ => true

/-- No media send succeeds, for the C7 witness failure-independence part. -/
def noSendsOk : String → Bool := fun _ => false

/-- Witness for C7 at the documented two-marker reply scenario. -/
theorem sendReplyWithMedia_spec_witness :
    (witnessParse "Here: x and y" ≠ []) ∧
    ((jsTrim (witnessStrip "Here: x and y" (witnessParse "Here: x and y")) ≠ "" →
      sendReplyWithMedia witnessParse witnessStrip allFilesExist allSendsOk
          "Here: x and y" =
        SendOp.sendChunkedText
            (witnessStrip "Here: x and y" (witnessParse "Here: x and y")) ::
          SendOp.pacingDelay 100 ::
          sendMarkersTrace allFilesExist allSendsOk (witnessParse "Here: x and y")) ∧
    (jsTrim (witnessStrip "Here: x and y" (witnessParse "Here: x and y")) = "" →
      sendReplyWithMedia witnessParse witnessStrip allFilesExist allSendsOk
          "Here: x and y" =
        sendMarkersTrace allFilesExist allSendsOk (witnessParse "Here: x and y")) ∧
    (∀ ms : List MediaMarker,
      attemptedMediaPaths (sendMarkersTrace allFilesExist allSendsOk ms) =
        (ms.filter (fun m => allFilesExist m.path)).map (fun m => m.path)) ∧
    (∀ ms : List MediaMarker,
      attemptedMediaPaths (sendMarkersTrace allFilesExist allSendsOk ms) =
        attemptedMediaPaths (sendMarkersTrace allFilesExist noSendsOk ms))) :=
  ⟨by decide,
    sendReplyWithMedia_spec witnessParse witnessStrip allFilesExist allSendsOk
      noSendsOk "Here: x and y" (by decide)⟩
